import Mathlib

/-!
Verification of the EtherIO driver (`eio.py`).

The development shallowly embeds the driver's pure core: the command
classifier `_cmdcheck`, the pin-index decomposition `eiobase.__io._iochk`,
the address normalizer `addrtuple`, the UDP command engine `eioudp.cmd`
(retry loop and write-validation loop, with the socket abstracted as a
transport oracle), the register accessors `eiobase.__port._pget/_pset`,
the MAC accessor `eioudp.mac`, and the pin setter `eiobase.__io.__setitem__`.

Bytes are modelled as `Nat` (values < 256 in all intended uses), byte
strings as `List Nat`, Python exceptions as an explicit `EioErr` error
value, and the process-wide statistics counters as an explicit `Stats`
record threaded through the functions.
-/

/-! ### Definitions

The socket of `eioudp` is abstracted as a transport oracle (`Tr`): for
each command and attempt number it yields whether `sendto` succeeds and,
for read commands, the response datagram (`none` models a `recvfrom`
timeout/error).  The process-wide counters of `eioudp` are threaded
explicitly; results pair an `Except` outcome with the final counter
state, since in Python the global counters survive a raised exception. -/

/-- Error conditions raised by the driver: `ValueError` on a rejected
command, `TimeoutError` on retry exhaustion, `AttributeError` for a
threshold/schmitt access on a device kind lacking those registers,
`IndexError` for a pin index out of range, and `ValueError` for an
unrecognized pin on/off token. -/
inductive EioErr
  | invalidCommand
  | timeout
  | unsupportedRegister
  | outOfRange
  | invalidPinValue
deriving DecidableEq, Repr

instance {ε α : Type} [DecidableEq ε] [DecidableEq α] : DecidableEq (Except ε α) := fun x y =>
  match x, y with
  | Except.ok a, Except.ok b => decidable_of_iff (a = b) (by simp)
  | Except.ok _, Except.error _ => isFalse (by intro h; cases h)
  | Except.error _, Except.ok _ => isFalse (by intro h; cases h)
  | Except.error a, Except.error b => decidable_of_iff (a = b) (by simp)

/-- The device kinds accepted by `eiobase.__init__`. -/
inductive Kind
  | IO24R
  | IO24T
  | IO72T
deriving DecidableEq, Repr

/-- Pin count of a device, from `eiobase.__io.__init__`:
24 for IO24R/IO24T, 72 for IO72T. -/
def ioLen : Kind → Nat
  | Kind.IO24R => 24
  | Kind.IO24T => 24
  | Kind.IO72T => 72

/-- `eiobase.__io._iochk`: verify the pin index is in range and return
`(port, bit, bitmask)` via `divmod(io, 8)` and `1 << bit`.  An index
outside `[0, len)` raises `IndexError` (modelled as `outOfRange`). -/
def iochk (k : Kind) (io : Int) : Except EioErr (Nat × Nat × Nat) :=
  if io < 0 ∨ (ioLen k : Int) ≤ io then Except.error EioErr.outOfRange
  else
    let i := io.toNat
    Except.ok (i / 8, i % 8, 1 <<< (i % 8))

/-- Python `str.split(sep)` on a single-character separator, over a
character list: accumulates the current field and cuts at each `':'`. -/
def splitColonAux : List Char → List Char → List (List Char)
  | [], acc => [acc.reverse]
  | c :: rest, acc =>
      if c = ':' then acc.reverse :: splitColonAux rest []
      else splitColonAux rest (c :: acc)

/-- Python `int(s)` for a nonnegative digit string (the only form the
driver feeds it); non-digit strings raise in Python and are outside the
modelled inputs. -/
def pyInt (s : List Char) : Nat :=
  s.foldl (fun n c => n * 10 + (c.toNat - 48)) 0

/-- Python `'.'.join(map(str, addr))` for a tuple of octets. -/
def dottedJoin : List Nat → List Char
  | [] => []
  | [x] => (toString x).toList
  | x :: y :: rest => (toString x).toList ++ '.' :: dottedJoin (y :: rest)

/-- The user-supplied address shapes accepted by `addrtuple`:
a string, a 2-tuple `(host, port)`, a 4-tuple of octets, or a 5-tuple of
octets plus port. -/
inductive AddrInput
  | astr (s : List Char)
  | tup2 (host : List Char) (port : Nat)
  | tup4 (o1 o2 o3 o4 : Nat)
  | tup5 (o1 o2 o3 o4 p : Nat)

/-- `addrtuple`: convert the address/port representations into a common
`(host, port)` format.  Falsy (`''` / `0` / `None`) host and port fall
back to the defaults `'10.10.10.10'` and `2424`; a string is split on
`':'` after appending a trailing `':'`. -/
def addrtuple (obj : AddrInput) : List Char × Nat :=
  match obj with
  | AddrInput.tup2 h p =>
      (if h = [] then "10.10.10.10".toList else h, if p = 0 then 2424 else p)
  | AddrInput.tup4 a b c d =>
      (if dottedJoin [a, b, c, d] = [] then "10.10.10.10".toList else dottedJoin [a, b, c, d], 2424)
  | AddrInput.tup5 a b c d p =>
      (if dottedJoin [a, b, c, d] = [] then "10.10.10.10".toList else dottedJoin [a, b, c, d],
       if p = 0 then 2424 else p)
  | AddrInput.astr s =>
      let parts := splitColonAux (s ++ [':']) []
      let a := parts.headD []
      let p := (parts.drop 1).headD []
      (if a = [] then "10.10.10.10".toList else a,
       if p = [] then 2424 else pyInt p)

/-- Byte membership in `b'abcdefghi'` (lowercase port letters, a contiguous
range). -/
def isLowerPortB (b : Nat) : Bool := decide (0x61 ≤ b ∧ b ≤ 0x69)

/-- Byte membership in `b'ABCDEFGHI'` (uppercase port letters). -/
def isUpperPortB (b : Nat) : Bool := decide (0x41 ≤ b ∧ b ≤ 0x49)

/-- Byte membership in `b'abcdefghiABCDEFGHI'` (any port letter). -/
def isPortB (b : Nat) : Bool := isLowerPortB b || isUpperPortB b

/-- Byte membership in `b'_!@#$%'`: the selector bytes the classifier
accepts — normalized value marker `_`, direction `!`, pull-up `@`,
threshold `#`, schmitt `$`, and the newer alternate pull-up command `%`. -/
def isSelB (b : Nat) : Bool :=
  decide (b = 0x5F ∨ b = 0x21 ∨ b = 0x40 ∨ b = 0x23 ∨ b = 0x24 ∨ b = 0x25)

/-- The operation kinds returned by `_cmdcheck` (`'read'`, `'write'`,
`'verify'`); a rejected command returns `none` (Python `None`). -/
inductive CmdType
  | read
  | write
  | verify
deriving DecidableEq, Repr

/-- The rules of `_cmdcheck` that run after the value-marker
normalization (source lines 503-530): the length-2 register read, the
length-3 register write-verify, the EEPROM commands, the reset commands
(matched on the first two bytes and the length only), and the SPI set-up
commands. -/
def cmdcheckCore (cmd : List Nat) : Option CmdType :=
  if cmd.length = 2 ∧ isSelB (cmd.headD 0) = true ∧ isLowerPortB (cmd.getD 1 0) = true then
    some CmdType.read
  else if cmd.length = 3 ∧ isSelB (cmd.headD 0) = true ∧ isUpperPortB (cmd.getD 1 0) = true then
    some CmdType.verify
  else if cmd.length = 5 ∧ cmd.take 2 = [0x27, 0x52] then some CmdType.read
  else if cmd.length = 5 ∧ cmd.take 2 = [0x27, 0x57] then some CmdType.write
  else if cmd.length = 5 ∧
      (cmd.take 2 = [0x27, 0x45] ∨ cmd.take 2 = [0x27, 0x30] ∨ cmd.take 2 = [0x27, 0x31]) then
    some CmdType.write
  else if cmd.length = 4 ∧ cmd.take 2 = [0x27, 0x72] then some CmdType.read
  else if cmd.length = 5 ∧ cmd.take 2 = [0x27, 0x77] then some CmdType.write
  else if cmd.take 2 = [0x27, 0x40] ∧ cmd.length = 5 then some CmdType.write
  else if cmd.take 2 = [0x27, 0x40] ∧ cmd.length = 2 then some CmdType.write
  else if cmd = [0x53, 0x31, 0x41] then some CmdType.read
  else if cmd = [0x53, 0x30, 0x41] then some CmdType.read
  else if cmd.take 2 = [0x53, 0x41] then some CmdType.read
  else none

/-- `_cmdcheck`: classify raw command bytes, mirroring the source rule by
rule — the two identify commands, the empty/underscore rejection, the
normalization that puts the `_` value marker in front of a bare port
letter, then the register/EEPROM/reset/SPI rules of `cmdcheckCore`. -/
def cmdcheck (cmd : List Nat) : Option CmdType :=
  if cmd = [0x49, 0x4F, 0x32, 0x34] then some CmdType.read
  else if cmd = [0x27, 0x49, 0x4F, 0x37, 0x32] then some CmdType.read
  else if cmd.length = 0 ∨ cmd.take 1 = [0x5F] then none
  else cmdcheckCore (if isPortB (cmd.headD 0) then 0x5F :: cmd else cmd)

/-- Modelled from the spec: the five register-selector symbols named by
the spec — value (written as its normalized marker `_`, since the bare
value form has no selector byte on the wire), direction `!`, pull-up `@`,
threshold `#`, schmitt `$`.  The alternate pull-up byte `%` accepted by
the code is deliberately NOT in this set. -/
def specSelectorBytes : List Nat := [0x5F, 0x21, 0x40, 0x23, 0x24]

/-- The selector bytes that actually yield Read/WriteVerify for raw
commands in the code: the classifier set `b'_!@#$%'` minus the rejected
leading `_`. -/
def rawSelectorBytes : List Nat := [0x21, 0x40, 0x23, 0x24, 0x25]

/-- The `eioudp` statistics counters (`_cnt_cmds`, `_cnt_pkts`,
`_cnt_rd_retries`, `_cnt_wr_retries`, `_max_rd_retries`,
`_max_wr_retries`), plus `xchg_attempts`, a ghost counter not present in
the source that counts socket exchange attempts, used to state
attempt-count properties. -/
structure Stats where
  cnt_cmds : Nat
  cnt_pkts : Nat
  cnt_rd_retries : Nat
  cnt_wr_retries : Nat
  max_rd_retries : Nat
  max_wr_retries : Nat
  xchg_attempts : Nat
deriving DecidableEq, Repr

/-- All-zero counters, as after `stats_clear`. -/
def stats0 : Stats := ⟨0, 0, 0, 0, 0, 0, 0⟩

/-- Outcome of one socket exchange offered by the environment:
whether `sendto` succeeds, and the datagram `recvfrom` would deliver
(`none` = timeout/error), only consulted for read commands. -/
structure Xchg where
  sendOk : Bool
  recv : Option (List Nat)

/-- A transport oracle: command bytes and per-loop attempt number to
exchange outcome. -/
def Tr : Type := List Nat → Nat → Xchg

/-- Transport that always fails (every `sendto` raises). -/
def failTr : Tr := fun _ _ => ⟨false, none⟩

/-- Deterministic, always-successful transport answering read commands
with `f cmd`. -/
def reliableTr (f : List Nat → List Nat) : Tr := fun c _ => ⟨true, some (f c)⟩

/-- One iteration body of the send loop (source lines 375-384): `sendto`,
and for read commands one `recvfrom`; `cnt_pkts` counts each successful
send and receive; `none` models the exception path. -/
def attemptExchange (x : Xchg) (isRead : Bool) (st : Stats) :
    Option (Option (List Nat)) × Stats :=
  let st1 := { st with xchg_attempts := st.xchg_attempts + 1 }
  if x.sendOk then
    let st2 := { st1 with cnt_pkts := st1.cnt_pkts + 1 }
    if isRead then
      match x.recv with
      | some d => (some (some d), { st2 with cnt_pkts := st2.cnt_pkts + 1 })
      | none => (none, st2)
    else (some none, st2)
  else (none, st1)

/-- Exception-propagating sequencing of two stateful steps: a raised
exception aborts the caller with the counter state it left behind. -/
def bindStep {A B : Type} (x : Except EioErr A × Stats)
    (k : A → Stats → Except EioErr B × Stats) : Except EioErr B × Stats :=
  match x with
  | (Except.error e, st) => (Except.error e, st)
  | (Except.ok a, st) => k a st

@[simp] theorem bindStep_ok {A B : Type} (a : A) (st : Stats)
    (k : A → Stats → Except EioErr B × Stats) :
    bindStep (Except.ok a, st) k = k a st := rfl

@[simp] theorem bindStep_error {A B : Type} (e : EioErr) (st : Stats)
    (k : A → Stats → Except EioErr B × Stats) :
    bindStep (Except.error e, st) k = (Except.error e, st) := rfl

/-- The send/retry loop of `eioudp.cmd` (source lines 373-394).  `fuel` is
`retries + 1 - tries` at entry; the loop raises `TimeoutError` once
`tries` exceeds `retries`, after incrementing `_cnt_rd_retries` and,
except on the raising iteration, updating `_max_rd_retries`.  The `fuel =
0` case is unreachable from `sendLoop` and returns the same timeout
error. -/
def sendLoopAux (tro : Nat → Xchg) (isRead : Bool) (retries : Nat) :
    Nat → Nat → Stats → Except EioErr (Option (List Nat)) × Stats
  | 0, _, st => (Except.error EioErr.timeout, st)
  | fuel + 1, tries, st =>
    match attemptExchange (tro tries) isRead st with
    | (some data, st1) => (Except.ok data, st1)
    | (none, st1) =>
      let st2 := { st1 with cnt_rd_retries := st1.cnt_rd_retries + 1 }
      let tries1 := tries + 1
      if tries1 > retries then (Except.error EioErr.timeout, st2)
      else
        let st3 := if tries1 > st2.max_rd_retries
                   then { st2 with max_rd_retries := tries1 } else st2
        sendLoopAux tro isRead retries fuel tries1 st3

/-- Entry to the send loop: `tries = 0`, enough fuel for `retries + 1`
iterations. -/
def sendLoop (tro : Nat → Xchg) (isRead : Bool) (retries : Nat) (st : Stats) :
    Except EioErr (Option (List Nat)) × Stats :=
  sendLoopAux tro isRead retries (retries + 1) 0 st

/-- `eioudp.cmd` without its write-validation phase: classification,
`_cnt_cmds` increment, send loop.  This is the exact behaviour of
`eioudp.cmd` on read/write commands, and is what the validation phase's
nested `eioudp.cmd(...)` calls perform on their (read-classified)
commands. -/
def cmdNoVal (tr : Tr) (retries : Nat) (c : List Nat) (st : Stats) :
    Except EioErr (Option (List Nat)) × Stats :=
  match cmdcheck c with
  | none => (Except.error EioErr.invalidCommand, st)
  | some ty =>
    let st1 := { st with cnt_cmds := st.cnt_cmds + 1 }
    sendLoop (tr c) (ty = CmdType.read) retries st1

/-- Python `bytes.lower()` on one byte: lowercase `A`-`Z` only. -/
def lowerByte (b : Nat) : Nat := if 0x41 ≤ b ∧ b ≤ 0x5A then b + 0x20 else b

/-- Python `bytes.upper()` on one byte: uppercase `a`-`z` only. -/
def upperByte (b : Nat) : Nat := if 0x61 ≤ b ∧ b ≤ 0x7A then b - 0x20 else b

/-- The direction-register read command `b'!' + cmd[:1].lower()` issued by
the write validator to build its mask (source line 401). -/
def dirReadCmd (c : List Nat) : List Nat := 0x21 :: (c.take 1).map lowerByte

/-- The read-back command `cmd[:-1].lower()` issued by the write
validator (source line 403). -/
def vcmdOf (c : List Nat) : List Nat := c.dropLast.map lowerByte

/-- The write-validation loop of `eioudp.cmd` (source lines 403-422):
re-read the written register through a nested `eioudp.cmd` call (which
uses the global retry setting `g`), undo that call's `_cnt_cmds`
increment, compare under the mask; on mismatch best-effort resend the
original write (a lone `sendto`, exceptions ignored, a successful send
counted in `cnt_pkts`), bump `_cnt_wr_retries`, and retry until `tries`
exceeds `retries`.  Device responses are assumed nonempty (an empty
response would raise `IndexError` at `val[-1]` in Python).  `fuel` is
`retries + 1 - tries` at entry; the `fuel = 0` case is unreachable. -/
def wvLoopAux (tr : Tr) (g : Nat) (c vcmd : List Nat) (msk : Nat) (retries : Nat) :
    Nat → Nat → Stats → Except EioErr Unit × Stats
  | 0, _, st => (Except.error EioErr.timeout, st)
  | fuel + 1, tries, st =>
    bindStep (cmdNoVal tr g vcmd st) (fun val st1 =>
      let st2 := { st1 with cnt_cmds := st1.cnt_cmds - 1 }
      if ((val.getD []).getLastD 0 &&& msk) = (c.getLastD 0 &&& msk) then
        (Except.ok (), st2)
      else
        let st3 := { st2 with xchg_attempts := st2.xchg_attempts + 1 }
        let st4 := if (tr c tries).sendOk
                   then { st3 with cnt_pkts := st3.cnt_pkts + 1 } else st3
        let st5 := { st4 with cnt_wr_retries := st4.cnt_wr_retries + 1 }
        let tries1 := tries + 1
        if tries1 > retries then (Except.error EioErr.timeout, st5)
        else
          let st6 := if tries1 > st5.max_wr_retries
                     then { st5 with max_wr_retries := tries1 } else st5
          wvLoopAux tr g c vcmd msk retries fuel tries1 st6)

/-- `eioudp.cmd`: classify (raising `ValueError` for a rejected command
before any counter changes or I/O), run the send/retry loop, and for
classified write-verify commands with write-validation enabled compute
the mask — by reading the port's direction register and inverting it when
the command's first byte is an uppercase port letter (a value-register
write), all-ones otherwise — then run the validation loop.  `g` is the
global `eioudp.retries` setting used by the nested calls; `retriesArg`
models the optional `retries` parameter (`None` = use `g`). -/
def cmdModel (wv : Bool) (tr : Tr) (g : Nat) (retriesArg : Option Nat)
    (c : List Nat) (st : Stats) : Except EioErr (Option (List Nat)) × Stats :=
  let retries := retriesArg.getD g
  match cmdcheck c with
  | none => (Except.error EioErr.invalidCommand, st)
  | some ty =>
    let st1 := { st with cnt_cmds := st.cnt_cmds + 1 }
    bindStep (sendLoop (tr c) (ty = CmdType.read) retries st1) (fun data st2 =>
      if wv = true ∧ ty = CmdType.verify then
        bindStep
          (if isUpperPortB (c.headD 0) = true then
            bindStep (cmdNoVal tr g (dirReadCmd c) st2) (fun d st3 =>
              (Except.ok ((d.getD []).getLastD 0 ^^^ 0xFF), st3))
          else (Except.ok 0xFF, st2))
          (fun msk st3 =>
            bindStep (wvLoopAux tr g c (vcmdOf c) msk retries (retries + 1) 0 st3)
              (fun _ st4 => (Except.ok data, st4)))
      else (Except.ok data, st2))

/-- `eioudp.mac`: run `eioudp.cmd`, absorb a `TimeoutError` into the
"unknown" result (Python `None`, modelled `Except.ok none`), and on
success return the MAC bytes `rsp[4:10]` (the source formats them as an
uppercase hex string; the byte content is modelled).  A `None` response
(non-read command) would raise `TypeError` in Python; `mac` is only
invoked with the read-classified identify commands. -/
def macModel (wv : Bool) (tr : Tr) (g : Nat) (ra : Option Nat) (c : List Nat)
    (st : Stats) : Except EioErr (Option (List Nat)) × Stats :=
  match cmdModel wv tr g ra c st with
  | (Except.error EioErr.timeout, st1) => (Except.ok none, st1)
  | (Except.error e, st1) => (Except.error e, st1)
  | (Except.ok d, st1) => (Except.ok (some (((d.getD []).drop 4).take 6)), st1)

/-- Python list/bytes front-match helper for the substring test. -/
def bytesFrontMatch : List Nat → List Nat → Bool
  | [], _ => true
  | _ :: _, [] => false
  | a :: as, b :: bs => a == b && bytesFrontMatch as bs

/-- Python `needle in hay` for byte strings: contiguous substring test. -/
def bytesContains (needle : List Nat) : List Nat → Bool
  | [] => needle.isEmpty
  | b :: rest => bytesFrontMatch needle (b :: rest) || bytesContains needle rest

/-- The transport-facing part of `_pget`: build `s + port.lower()`, run
`eioudp.cmd` (with the global retry setting), return the last byte of the
response (`d[-1]`; an empty or `None` response would raise in Python). -/
def pgetCore (wv : Bool) (tr : Tr) (g : Nat) (port : Nat) (s : List Nat)
    (st : Stats) : Except EioErr Nat × Stats :=
  match cmdModel wv tr g none (s ++ [lowerByte port]) st with
  | (Except.error e, st1) => (Except.error e, st1)
  | (Except.ok d, st1) => (Except.ok ((d.getD []).getLastD 0), st1)

/-- `_pget`: the capability gate — `s and (s in "#$") and kind != "IO24R"`
raises `AttributeError` before any command is built, classified or sent —
then the transport-facing part. -/
def pget (wv : Bool) (tr : Tr) (g : Nat) (kind : Kind) (port : Nat) (s : List Nat)
    (st : Stats) : Except EioErr Nat × Stats :=
  if s ≠ [] ∧ bytesContains s [0x23, 0x24] = true ∧ kind ≠ Kind.IO24R then
    (Except.error EioErr.unsupportedRegister, st)
  else pgetCore wv tr g port s st

/-- The transport-facing part of `_pset`: build `s + port.upper() + v`,
run `eioudp.cmd`. -/
def psetCore (wv : Bool) (tr : Tr) (g : Nat) (port : Nat) (s : List Nat) (v : Nat)
    (st : Stats) : Except EioErr Unit × Stats :=
  match cmdModel wv tr g none (s ++ [upperByte port, v]) st with
  | (Except.error e, st1) => (Except.error e, st1)
  | (Except.ok _, st1) => (Except.ok (), st1)

/-- `_pset`: same capability gate as `_pget`, then the write command. -/
def pset (wv : Bool) (tr : Tr) (g : Nat) (kind : Kind) (port : Nat) (s : List Nat)
    (v : Nat) (st : Stats) : Except EioErr Unit × Stats :=
  if s ≠ [] ∧ bytesContains s [0x23, 0x24] = true ∧ kind ≠ Kind.IO24R then
    (Except.error EioErr.unsupportedRegister, st)
  else psetCore wv tr g port s v st

/-- The validation mask described by the claim: for a value-register
write (first byte an uppercase port letter) the port's direction register
is read and inverted bitwise; for any other register it is all-ones. -/
def validationMask (f : List Nat → List Nat) (c : List Nat) : Nat :=
  if isUpperPortB (c.headD 0) = true then (f (dirReadCmd c)).getLastD 0 ^^^ 0xFF
  else 0xFF

/-- The pin on/off tokens: Python mixes ints and strings in the `LOs` and
`HIs` lists. -/
inductive IOVal
  | num (n : Nat)
  | str (s : String)
deriving DecidableEq, Repr

/-- The recognized "off" tokens `[0,'0','L','LO','LOW','OFF']`. -/
def LOs : List IOVal :=
  [IOVal.num 0, IOVal.str "0", IOVal.str "L", IOVal.str "LO", IOVal.str "LOW",
   IOVal.str "OFF"]

/-- The recognized "on" tokens `[1,'1','H','HI','HIGH','ON']`. -/
def HIs : List IOVal :=
  [IOVal.num 1, IOVal.str "1", IOVal.str "H", IOVal.str "HI", IOVal.str "HIGH",
   IOVal.str "ON"]

/-- The byte written back by `__setitem__` given the byte read from the
port's value register: clear the masked bit for an off token, set it for
an on token (source lines 133-134). -/
def setItemByte (v : IOVal) (msk val : Nat) : Nat :=
  let val1 := if v ∈ LOs then val &&& (msk ^^^ 0xFF) else val
  if v ∈ HIs then val1 ||| msk else val1

/-- `eiobase.__io.__setitem__`: validate the token, check the index,
read the owning port's value byte (`portVal`), and write back the updated
byte; returns the port index written and the byte written. -/
def setitemModel (k : Kind) (io : Int) (v : IOVal) (portVal : Nat) :
    Except EioErr (Nat × Nat) :=
  if v ∉ LOs ++ HIs then Except.error EioErr.invalidPinValue
  else
    match iochk k io with
    | Except.error e => Except.error e
    | Except.ok (prt, _, msk) => Except.ok (prt, setItemByte v msk portVal)

/-! ### Theorems -/

/-- The dotted join of two or more octets is never the empty string, so
the falsy-host fallback in `addrtuple` is not taken for 4/5-tuples. -/
theorem dottedJoin_ne_nil (x y : Nat) (xs : List Nat) : dottedJoin (x :: y :: xs) ≠ [] := by
  simp [dottedJoin]

/-- C4: for every device kind and in-range index, `iochk` decomposes the
index into `(i / 8, i % 8, 1 <<< (i % 8))`; the reconstruction
`port * 8 + bit` recovers the index and the mask has exactly one bit set,
at position `bit`; every negative or too-large index fails with
`outOfRange`; and the pin counts are 24 / 24 / 72. -/
theorem c4_pin_indexing (k : Kind) (i : Int) :
    ((0 ≤ i ∧ i < (ioLen k : Int)) →
      iochk k i = Except.ok (i.toNat / 8, i.toNat % 8, 1 <<< (i.toNat % 8)) ∧
      (i.toNat / 8) * 8 + i.toNat % 8 = i.toNat ∧
      (∀ j : Nat, ((1 <<< (i.toNat % 8)).testBit j = true ↔ j = i.toNat % 8))) ∧
    ((i < 0 ∨ (ioLen k : Int) ≤ i) → iochk k i = Except.error EioErr.outOfRange) ∧
    (ioLen Kind.IO24R = 24 ∧ ioLen Kind.IO24T = 24 ∧ ioLen Kind.IO72T = 72) := by
  refine ⟨?_, ?_, by decide⟩
  · rintro ⟨h0, h1⟩
    refine ⟨by simp [iochk, not_or]; omega, by omega, ?_⟩
    intro j
    rw [Nat.one_shiftLeft]
    constructor
    · intro hj
      by_contra hne
      rw [Nat.testBit_two_pow_of_ne (fun h => hne h.symm)] at hj
      exact Bool.false_ne_true hj
    · rintro rfl
      exact Nat.testBit_two_pow_self
  · intro h
    simp only [iochk, if_pos h]

/-- Witness for C4 at pin 13 of an IO24T (port 1, bit 5, mask 32) and at
the out-of-range index 99. -/
theorem c4_pin_indexing_witness :
    iochk Kind.IO24T 13 = Except.ok (1, 5, 32) ∧
    iochk Kind.IO24T 99 = Except.error EioErr.outOfRange := by
  have h := (c4_pin_indexing Kind.IO24T 13).1 (by constructor <;> decide)
  have h2 := (c4_pin_indexing Kind.IO24T 99).2.1 (by right; decide)
  exact ⟨by rw [h.1]; decide, h2⟩

/-- C7: the documented address normalizations — a bare host string keeps
the default port 2424, a `host:port` string carries its port, the empty
string yields the default `('10.10.10.10', 2424)`, a 4-tuple of octets
becomes the dotted host with the default port, and a 5-tuple of octets
plus a (nonzero) port becomes the dotted host with that port. -/
theorem c7_addr_normalization :
    addrtuple (AddrInput.astr "192.168.1.50".toList) = ("192.168.1.50".toList, 2424) ∧
    addrtuple (AddrInput.astr "192.168.1.50:8000".toList) = ("192.168.1.50".toList, 8000) ∧
    addrtuple (AddrInput.astr "".toList) = ("10.10.10.10".toList, 2424) ∧
    (∀ a b c d : Nat, addrtuple (AddrInput.tup4 a b c d) = (dottedJoin [a, b, c, d], 2424)) ∧
    (∀ a b c d p : Nat, 0 < p →
      addrtuple (AddrInput.tup5 a b c d p) = (dottedJoin [a, b, c, d], p)) := by
  refine ⟨by decide, by decide, by decide, fun a b c d => ?_, fun a b c d p hp => ?_⟩
  · simp only [addrtuple, if_neg (dottedJoin_ne_nil a b [c, d])]
  · simp only [addrtuple, if_neg (dottedJoin_ne_nil a b [c, d]),
      if_neg (Nat.pos_iff_ne_zero.mp hp)]

/-- Witness for C7's quantified 5-tuple clause at `(192,168,1,50,8000)`. -/
theorem c7_addr_normalization_witness :
    addrtuple (AddrInput.tup5 192 168 1 50 8000) = (dottedJoin [192, 168, 1, 50], 8000) :=
  c7_addr_normalization.2.2.2.2 192 168 1 50 8000 (by decide)

theorem isLowerPortB_iff (b : Nat) : isLowerPortB b = true ↔ 0x61 ≤ b ∧ b ≤ 0x69 := by
  simp [isLowerPortB]

theorem isUpperPortB_iff (b : Nat) : isUpperPortB b = true ↔ 0x41 ≤ b ∧ b ≤ 0x49 := by
  simp [isUpperPortB]

theorem isPortB_iff (b : Nat) :
    isPortB b = true ↔ (0x61 ≤ b ∧ b ≤ 0x69) ∨ (0x41 ≤ b ∧ b ≤ 0x49) := by
  simp [isPortB, isLowerPortB, isUpperPortB]

theorem isSelB_iff (b : Nat) :
    isSelB b = true ↔ b = 0x5F ∨ b = 0x21 ∨ b = 0x40 ∨ b = 0x23 ∨ b = 0x24 ∨ b = 0x25 := by
  simp [isSelB]

example : cmdcheck [0x49, 0x4F, 0x32, 0x34] = some CmdType.read := by decide

example : cmdcheck [0x21, 0x61] = some CmdType.read := by decide

example : cmdcheck [0x25, 0x61] = some CmdType.read := by decide

example : cmdcheck [0x5F, 0x61] = none := by decide

example : cmdcheck [0x61] = some CmdType.read := by decide

example : cmdcheck [0x41, 0x2A] = some CmdType.verify := by decide

example : cmdcheck [0x21, 0x41, 0x00] = some CmdType.verify := by decide

example : cmdcheck [0x27, 0x40] = some CmdType.write := by decide

example : cmdcheck [0x27, 0x40, 0x00, 0xAA, 0x55] = some CmdType.write := by decide

example : cmdcheck [0x27, 0x40, 0x01, 0x02, 0x03] = some CmdType.write := by decide

example : cmdcheck [0x53, 0x41, 0x99] = some CmdType.read := by decide

example : cmdcheck [] = none := by decide

theorem cmdcheckCore_two (x y : Nat) :
    cmdcheckCore [x, y] =
      if isSelB x = true ∧ isLowerPortB y = true then some CmdType.read
      else if x = 0x27 ∧ y = 0x40 then some CmdType.write
      else if x = 0x53 ∧ y = 0x41 then some CmdType.read
      else none := by
  unfold cmdcheckCore
  simp only [List.length_cons, List.length_nil, List.take_succ_cons, List.take_zero,
    List.headD_cons, List.getD_cons_succ, List.getD_cons_zero, List.cons.injEq, and_true]
  norm_num

theorem cmdcheckCore_three (x y z : Nat) :
    cmdcheckCore [x, y, z] =
      if isSelB x = true ∧ isUpperPortB y = true then some CmdType.verify
      else if x = 0x53 ∧ y = 0x31 ∧ z = 0x41 then some CmdType.read
      else if x = 0x53 ∧ y = 0x30 ∧ z = 0x41 then some CmdType.read
      else if x = 0x53 ∧ y = 0x41 then some CmdType.read
      else none := by
  unfold cmdcheckCore
  simp only [List.length_cons, List.length_nil, List.take_succ_cons, List.take_zero,
    List.headD_cons, List.getD_cons_succ, List.getD_cons_zero, List.cons.injEq, and_true]
  norm_num

theorem cmdcheckCore_four (x y z w : Nat) :
    cmdcheckCore [x, y, z, w] =
      if x = 0x27 ∧ y = 0x72 then some CmdType.read
      else if x = 0x53 ∧ y = 0x41 then some CmdType.read
      else none := by
  unfold cmdcheckCore
  simp only [List.length_cons, List.length_nil, List.take_succ_cons, List.take_zero,
    List.headD_cons, List.getD_cons_succ, List.getD_cons_zero, List.cons.injEq, and_true]
  norm_num

theorem cmdcheck_eq_core (cmd : List Nat)
    (h1 : cmd ≠ [0x49, 0x4F, 0x32, 0x34]) (h2 : cmd ≠ [0x27, 0x49, 0x4F, 0x37, 0x32])
    (h3 : ¬(cmd.length = 0 ∨ cmd.take 1 = [0x5F])) :
    cmdcheck cmd = cmdcheckCore (if isPortB (cmd.headD 0) then 0x5F :: cmd else cmd) := by
  simp only [cmdcheck, if_neg h1, if_neg h2, if_neg h3]

theorem cmdcheck_two (b1 b2 : Nat) (h2 : isLowerPortB b2 = true) :
    cmdcheck [b1, b2] =
      if isSelB b1 = true ∧ b1 ≠ 0x5F then some CmdType.read
      else if isUpperPortB b1 = true then some CmdType.verify
      else none := by
  have hb2 := (isLowerPortB_iff b2).mp h2
  by_cases h5 : b1 = 0x5F
  · subst h5
    have hnone : cmdcheck [0x5F, b2] = none := by simp [cmdcheck]
    rw [hnone, if_neg (by simp), if_neg (by rw [isUpperPortB_iff]; omega)]
  · rw [cmdcheck_eq_core _ (by simp) (by simp)
      (by simp only [List.length_cons, List.length_nil, List.take_succ_cons, List.take_zero]
          simp [h5])]
    simp only [List.headD_cons]
    by_cases hp : isPortB b1 = true
    · rw [if_pos hp, cmdcheckCore_three]
      have hrange := (isPortB_iff b1).mp hp
      have hns : ¬(isSelB b1 = true ∧ b1 ≠ 0x5F) := by rw [isSelB_iff]; omega
      rw [if_neg hns]
      by_cases hu : isUpperPortB b1 = true
      · rw [if_pos ⟨by decide, hu⟩, if_pos hu]
      · rw [if_neg (fun h => hu h.2), if_neg hu]
        norm_num
    · rw [if_neg hp, cmdcheckCore_two]
      have hu : ¬(isUpperPortB b1 = true) := by
        intro h; exact hp (by simp [isPortB, h])
      by_cases hs : isSelB b1 = true
      · rw [if_pos ⟨hs, h2⟩, if_pos ⟨hs, h5⟩]
      · have n1 : ¬(isSelB b1 = true ∧ isLowerPortB b2 = true) := fun h => hs h.1
        have n2 : ¬(b1 = 0x27 ∧ b2 = 0x40) := by omega
        have n3 : ¬(b1 = 0x53 ∧ b2 = 0x41) := by omega
        have n4 : ¬(isSelB b1 = true ∧ b1 ≠ 0x5F) := fun h => hs h.1
        rw [if_neg n1, if_neg n2, if_neg n3, if_neg n4, if_neg hu]

theorem cmdcheck_three (b1 b2 b3 : Nat) (h2 : isUpperPortB b2 = true) :
    cmdcheck [b1, b2, b3] =
      if isSelB b1 = true ∧ b1 ≠ 0x5F then some CmdType.verify
      else if b1 = 0x53 ∧ b2 = 0x41 then some CmdType.read
      else none := by
  have hb2 := (isUpperPortB_iff b2).mp h2
  by_cases h5 : b1 = 0x5F
  · subst h5
    have hnone : cmdcheck [0x5F, b2, b3] = none := by simp [cmdcheck]
    rw [hnone, if_neg (by simp)]
    simp
  · rw [cmdcheck_eq_core _ (by simp) (by simp)
      (by simp only [List.length_cons, List.length_nil, List.take_succ_cons, List.take_zero]
          simp [h5])]
    simp only [List.headD_cons]
    by_cases hp : isPortB b1 = true
    · rw [if_pos hp, cmdcheckCore_four]
      have hrange := (isPortB_iff b1).mp hp
      have n1 : ¬((0x5F : Nat) = 0x27 ∧ b1 = 0x72) := by omega
      have n2 : ¬((0x5F : Nat) = 0x53 ∧ b1 = 0x41) := by omega
      have n3 : ¬(isSelB b1 = true ∧ b1 ≠ 0x5F) := by rw [isSelB_iff]; omega
      have n4 : ¬(b1 = 0x53 ∧ b2 = 0x41) := by omega
      rw [if_neg n1, if_neg n2, if_neg n3, if_neg n4]
    · rw [if_neg hp, cmdcheckCore_three]
      by_cases hs : isSelB b1 = true
      · rw [if_pos ⟨hs, h2⟩, if_pos ⟨hs, h5⟩]
      · have n1 : ¬(isSelB b1 = true ∧ isUpperPortB b2 = true) := fun h => hs h.1
        have n2 : ¬(b1 = 0x53 ∧ b2 = 0x31 ∧ b3 = 0x41) := by omega
        have n3 : ¬(b1 = 0x53 ∧ b2 = 0x30 ∧ b3 = 0x41) := by omega
        have n4 : ¬(isSelB b1 = true ∧ b1 ≠ 0x5F) := fun h => hs h.1
        rw [if_neg n1, if_neg n2, if_neg n3, if_neg n4]

theorem rawSelectorBytes_iff (b : Nat) :
    b ∈ rawSelectorBytes ↔ (isSelB b = true ∧ b ≠ 0x5F) := by
  simp [rawSelectorBytes, isSelB_iff]
  omega

/-- C3 counterexample: the 2-byte command `%a` (alternate pull-up read) is
classified Read although `%` is not one of the five register-selector
symbols, so "Read exactly when the first byte is one of the five
register-selector symbols" fails, as does "any selector byte outside that
five-symbol set is Invalid". -/
theorem c3_counterexample :
    cmdcheck [0x25, 0x61] = some CmdType.read ∧ (0x25 : Nat) ∉ specSelectorBytes := by
  decide

/-- C3 as amended: for 2-byte commands with a lowercase port letter second
byte, classify returns Read exactly when the first byte is in
`{'!','@','#','$','%'}` (the spec's selector set with the value marker
excluded — a leading `_` is rejected — plus the alternate pull-up `%`);
for 3-byte commands with an uppercase port letter second byte and one
payload byte, classify returns WriteVerify exactly for the same set. -/
theorem c3_amended :
    (∀ b1 b2 : Nat, isLowerPortB b2 = true →
      (cmdcheck [b1, b2] = some CmdType.read ↔ b1 ∈ rawSelectorBytes)) ∧
    (∀ b1 b2 b3 : Nat, isUpperPortB b2 = true →
      (cmdcheck [b1, b2, b3] = some CmdType.verify ↔ b1 ∈ rawSelectorBytes)) := by
  constructor
  · intro b1 b2 h2
    rw [cmdcheck_two b1 b2 h2, rawSelectorBytes_iff]
    by_cases hA : isSelB b1 = true ∧ b1 ≠ 0x5F
    · simp [hA]
    · rw [if_neg hA]
      constructor
      · intro h
        by_cases hu : isUpperPortB b1 = true
        · rw [if_pos hu] at h; simp at h
        · rw [if_neg hu] at h; simp at h
      · intro h
        exact absurd h hA
  · intro b1 b2 b3 h2
    rw [cmdcheck_three b1 b2 b3 h2, rawSelectorBytes_iff]
    by_cases hA : isSelB b1 = true ∧ b1 ≠ 0x5F
    · simp [hA]
    · rw [if_neg hA]
      constructor
      · intro h
        by_cases hsa : b1 = 0x53 ∧ b2 = 0x41
        · rw [if_pos hsa] at h; simp at h
        · rw [if_neg hsa] at h; simp at h
      · intro h
        exact absurd h hA

/-- Witness for C3's amended theorem: the direction-read command `!a` is
classified Read and `!` is in the raw selector set. -/
theorem c3_amended_witness :
    cmdcheck [0x21, 0x61] = some CmdType.read ↔ (0x21 : Nat) ∈ rawSelectorBytes :=
  c3_amended.1 0x21 0x61 (by decide)

/-- C5 counterexample: a 5-byte command starting with the reset marker
`'@` whose trailing bytes are NOT the fixed key `\x00\xAA\x55` is still
classified Write, not Invalid. -/
theorem c5_counterexample :
    cmdcheck [0x27, 0x40, 0x01, 0x02, 0x03] = some CmdType.write ∧
    [0x01, 0x02, 0x03] ≠ [0x00, 0xAA, 0x55] := by
  decide

/-- C5 as amended: classify returns Write for the 2-byte reset short form
and for every 5-byte command whose first two bytes are the reset marker
`'@`, regardless of the three trailing bytes — the fixed key bytes are
never checked. -/
theorem c5_amended (b3 b4 b5 : Nat) :
    cmdcheck [0x27, 0x40] = some CmdType.write ∧
    cmdcheck [0x27, 0x40, b3, b4, b5] = some CmdType.write := by
  refine ⟨by decide, ?_⟩
  simp [cmdcheck, cmdcheckCore, isPortB, isLowerPortB, isUpperPortB, isSelB]

/-- C6: a command the classifier rejects makes `eioudp.cmd` fail with
`ValueError` (InvalidCommand) synchronously: the returned state is the
input state — no counter changes, no exchange attempts (ghost counter
unchanged), no retries. -/
theorem c6_invalid_before_io (wv : Bool) (tr : Tr) (g : Nat) (ra : Option Nat)
    (c : List Nat) (st : Stats) (h : cmdcheck c = none) :
    cmdModel wv tr g ra c st = (Except.error EioErr.invalidCommand, st) := by
  simp only [cmdModel, h]

/-- Witness for C6 on the rejected one-byte command `\x00`. -/
theorem c6_invalid_before_io_witness :
    cmdModel true failTr 10 none [0x00] stats0 =
      (Except.error EioErr.invalidCommand, stats0) :=
  c6_invalid_before_io true failTr 10 none [0x00] stats0 (by decide)

/-- The send loop under an always-failing transport: with `tries + fuel =
retries + 1` it times out, incrementing the read-retry counter and the
exchange-attempt ghost counter by exactly `fuel`. -/
theorem sendLoopAux_fail (tro : Nat → Xchg) (hfail : ∀ n, (tro n).sendOk = false)
    (isRead : Bool) (retries : Nat) :
    ∀ fuel tries st, tries + fuel = retries + 1 →
      (sendLoopAux tro isRead retries fuel tries st).1 = Except.error EioErr.timeout ∧
      (sendLoopAux tro isRead retries fuel tries st).2.cnt_rd_retries =
        st.cnt_rd_retries + fuel ∧
      (sendLoopAux tro isRead retries fuel tries st).2.xchg_attempts =
        st.xchg_attempts + fuel := by
  intro fuel
  induction fuel with
  | zero => intro tries st h; simp [sendLoopAux]
  | succ n ih =>
    intro tries st h
    have hx : attemptExchange (tro tries) isRead st =
        (none, { st with xchg_attempts := st.xchg_attempts + 1 }) := by
      simp [attemptExchange, hfail tries]
    by_cases hstop : tries + 1 > retries
    · have hn : n = 0 := by omega
      subst hn
      simp [sendLoopAux, hx, hstop]
    · simp only [sendLoopAux, hx]
      rw [if_neg hstop]
      split_ifs with hmax
      · refine ⟨(ih (tries + 1) _ (by omega)).1, ?_, ?_⟩
        · rw [(ih (tries + 1) _ (by omega)).2.1]; simp; omega
        · rw [(ih (tries + 1) _ (by omega)).2.2]; simp; omega
      · refine ⟨(ih (tries + 1) _ (by omega)).1, ?_, ?_⟩
        · rw [(ih (tries + 1) _ (by omega)).2.1]; simp; omega
        · rw [(ih (tries + 1) _ (by omega)).2.2]; simp; omega

/-- C2: with every transport exchange failing, `eioudp.cmd` on any valid
command with retry count `r` fails with Timeout after exactly `r + 1`
exchange attempts (ghost counter), incrementing the read-retry counter by
exactly `r + 1`. -/
theorem c2_retry_exhaustion (wv : Bool) (g r : Nat) (c : List Nat) (ty : CmdType)
    (st : Stats) (h : cmdcheck c = some ty) :
    (cmdModel wv failTr g (some r) c st).1 = Except.error EioErr.timeout ∧
    (cmdModel wv failTr g (some r) c st).2.cnt_rd_retries = st.cnt_rd_retries + (r + 1) ∧
    (cmdModel wv failTr g (some r) c st).2.xchg_attempts = st.xchg_attempts + (r + 1) := by
  have hS := sendLoopAux_fail (failTr c) (fun n => rfl) (decide (ty = CmdType.read)) r
    (r + 1) 0 { st with cnt_cmds := st.cnt_cmds + 1 } (by omega)
  rcases hE : sendLoopAux (failTr c) (decide (ty = CmdType.read)) r (r + 1) 0
      { st with cnt_cmds := st.cnt_cmds + 1 } with ⟨res, st2⟩
  rw [hE] at hS
  obtain ⟨h1, h2, h3⟩ := hS
  simp only at h1 h2 h3
  subst h1
  simp only [cmdModel, h, Option.getD, sendLoop, hE]
  refine ⟨by simp, ?_, ?_⟩
  · simp only [bindStep_error]; rw [h2]
  · simp only [bindStep_error]; rw [h3]

/-- Witness for C2: the identify command under the always-failing
transport with `retries = 2` times out with 3 read-retries and 3 exchange
attempts. -/
theorem c2_retry_exhaustion_witness :
    (cmdModel true failTr 10 (some 2) [0x49, 0x4F, 0x32, 0x34] stats0).1 =
      Except.error EioErr.timeout ∧
    (cmdModel true failTr 10 (some 2) [0x49, 0x4F, 0x32, 0x34] stats0).2.cnt_rd_retries =
      stats0.cnt_rd_retries + 3 ∧
    (cmdModel true failTr 10 (some 2) [0x49, 0x4F, 0x32, 0x34] stats0).2.xchg_attempts =
      stats0.xchg_attempts + 3 :=
  c2_retry_exhaustion true 10 2 [0x49, 0x4F, 0x32, 0x34] CmdType.read stats0 (by decide)

/-- C9: when the identify exchange exhausts its retries and raises
Timeout, the MAC accessor returns the "unknown" result (`none`) instead
of propagating; on a successful exchange it returns bytes 4 through 9 of
the response. -/
theorem c9_mac_unknown (wv : Bool) (tr : Tr) (g : Nat) (ra : Option Nat)
    (c : List Nat) (st : Stats) :
    (∀ st1, cmdModel wv tr g ra c st = (Except.error EioErr.timeout, st1) →
      macModel wv tr g ra c st = (Except.ok none, st1)) ∧
    (∀ d st1, cmdModel wv tr g ra c st = (Except.ok (some d), st1) →
      macModel wv tr g ra c st = (Except.ok (some ((d.drop 4).take 6)), st1)) := by
  constructor
  · intro st1 h
    simp [macModel, h]
  · intro d st1 h
    simp [macModel, h]

/-- Witness for C9: the identify command `IO24` over the always-failing
transport yields the unknown MAC; over a reliable transport answering an
11-byte response it yields bytes 4..9. -/
theorem c9_mac_unknown_witness :
    macModel true failTr 5 (some 0) [0x49, 0x4F, 0x32, 0x34] stats0 =
      (Except.ok none, ⟨1, 0, 1, 0, 0, 0, 1⟩) ∧
    macModel true (reliableTr (fun _ => [0, 1, 2, 3, 4, 5, 6, 7, 8, 9, 10])) 5 (some 0)
        [0x49, 0x4F, 0x32, 0x34] stats0 =
      (Except.ok (some [4, 5, 6, 7, 8, 9]), ⟨1, 2, 0, 0, 0, 0, 1⟩) :=
  ⟨(c9_mac_unknown true failTr 5 (some 0) [0x49, 0x4F, 0x32, 0x34] stats0).1
      ⟨1, 0, 1, 0, 0, 0, 1⟩ (by decide),
   (c9_mac_unknown true (reliableTr (fun _ => [0, 1, 2, 3, 4, 5, 6, 7, 8, 9, 10])) 5 (some 0)
      [0x49, 0x4F, 0x32, 0x34] stats0).2 [0, 1, 2, 3, 4, 5, 6, 7, 8, 9, 10]
      ⟨1, 2, 0, 0, 0, 0, 1⟩ (by decide)⟩

/-- C8: a threshold (`#`) or schmitt (`$`) register get/set on a device
kind other than IO24R fails with `AttributeError` (UnsupportedRegister)
with the state untouched — before classification and before any network
I/O — while on an IO24R device the same access proceeds to the
classification-and-transport path unchanged. -/
theorem c8_capability_gate (wv : Bool) (tr : Tr) (g : Nat) (k : Kind) (p v : Nat)
    (st : Stats) (s : List Nat) (hs : s = [0x23] ∨ s = [0x24]) :
    (k ≠ Kind.IO24R →
      pget wv tr g k p s st = (Except.error EioErr.unsupportedRegister, st) ∧
      pset wv tr g k p s v st = (Except.error EioErr.unsupportedRegister, st)) ∧
    (pget wv tr g Kind.IO24R p s st = pgetCore wv tr g p s st ∧
     pset wv tr g Kind.IO24R p s v st = psetCore wv tr g p s v st) := by
  rcases hs with hs | hs <;> subst hs <;>
    exact ⟨fun hk => ⟨by rw [pget, if_pos ⟨by simp, by decide, hk⟩],
                      by rw [pset, if_pos ⟨by simp, by decide, hk⟩]⟩,
           by rw [pget, if_neg (by simp)],
           by rw [pset, if_neg (by simp)]⟩

/-- Witness for C8: a threshold read/write on an IO24T is rejected with
the counters untouched. -/
theorem c8_capability_gate_witness :
    pget true failTr 10 Kind.IO24T 0x41 [0x23] stats0 =
      (Except.error EioErr.unsupportedRegister, stats0) ∧
    pset true failTr 10 Kind.IO24T 0x41 [0x23] 0x00 stats0 =
      (Except.error EioErr.unsupportedRegister, stats0) :=
  (c8_capability_gate true failTr 10 Kind.IO24T 0x41 0x00 stats0 [0x23]
    (Or.inl rfl)).1 (by decide)

set_option maxHeartbeats 1000000 in
/-- Only the length-3 register rule of `cmdcheckCore` yields `verify`. -/
theorem cmdcheckCore_verify_inv (cmd : List Nat)
    (h : cmdcheckCore cmd = some CmdType.verify) :
    cmd.length = 3 ∧ isSelB (cmd.headD 0) = true ∧ isUpperPortB (cmd.getD 1 0) = true := by
  by_cases h2 : cmd.length = 3 ∧ isSelB (cmd.headD 0) = true ∧ isUpperPortB (cmd.getD 1 0) = true
  · exact h2
  · exfalso
    unfold cmdcheckCore at h
    rw [if_neg h2] at h
    split_ifs at h <;>
      first
        | exact Option.noConfusion h
        | exact absurd (Option.some.inj h) (by decide)

/-- Shape inversion: a command classified `verify` is either a bare
2-byte value write `[U, v]` with `U` an uppercase port letter, or a
3-byte `[s, U, v]` with `s` a raw selector byte. -/
theorem cmdcheck_verify_shape (c : List Nat) (h : cmdcheck c = some CmdType.verify) :
    (∃ U v, isUpperPortB U = true ∧ c = [U, v]) ∨
    (∃ s U v, s ∈ rawSelectorBytes ∧ isUpperPortB U = true ∧ c = [s, U, v]) := by
  have hne1 : c ≠ [0x49, 0x4F, 0x32, 0x34] := by
    intro he; rw [he] at h; simp [cmdcheck] at h
  have hne2 : c ≠ [0x27, 0x49, 0x4F, 0x37, 0x32] := by
    intro he; rw [he] at h; simp [cmdcheck] at h
  have hne3 : ¬(c.length = 0 ∨ c.take 1 = [0x5F]) := by
    intro he
    rw [cmdcheck, if_neg hne1, if_neg hne2, if_pos he] at h
    cases h
  rw [cmdcheck_eq_core c hne1 hne2 hne3] at h
  by_cases hp : isPortB (c.headD 0) = true
  · rw [if_pos hp] at h
    obtain ⟨hlen, _, hup⟩ := cmdcheckCore_verify_inv _ h
    match c, hlen with
    | [a, b], _ =>
      left
      exact ⟨a, b, by simpa using hup, rfl⟩
  · rw [if_neg hp] at h
    obtain ⟨hlen, hsel, hup⟩ := cmdcheckCore_verify_inv _ h
    match c, hlen with
    | [a, b, d], _ =>
      right
      refine ⟨a, b, d, ?_, by simpa using hup, rfl⟩
      rw [rawSelectorBytes_iff]
      refine ⟨by simpa using hsel, ?_⟩
      intro ha
      exact hne3 (Or.inr (by simp [ha]))

/-- `bytes.lower()` sends an uppercase port letter to the corresponding
lowercase one. -/
theorem lowerByte_of_upper (U : Nat) (hU : isUpperPortB U = true) :
    isLowerPortB (lowerByte U) = true := by
  rw [isUpperPortB_iff] at hU
  rw [isLowerPortB_iff, lowerByte, if_pos (by omega)]
  omega

/-- `bytes.lower()` leaves the selector bytes unchanged. -/
theorem lowerByte_sel (s : Nat) (hs : s ∈ rawSelectorBytes) : lowerByte s = s := by
  rw [rawSelectorBytes_iff, isSelB_iff] at hs
  rw [lowerByte, if_neg (by omega)]

/-- A bare lowercase port letter classifies as a value-register read. -/
theorem cmdcheck_single_lower (u : Nat) (hu : isLowerPortB u = true) :
    cmdcheck [u] = some CmdType.read := by
  have hu' := (isLowerPortB_iff u).mp hu
  rw [cmdcheck_eq_core _ (by simp) (by simp)
    (by rintro (h | h)
        · simp at h
        · simp at h
          omega)]
  rw [List.headD_cons, if_pos (by rw [isPortB_iff]; omega), cmdcheckCore_two,
    if_pos ⟨by decide, hu⟩]

/-- The send loop under the reliable transport, non-read command: one
successful send, no receive. -/
theorem sendLoop_reliable_false (f : List Nat → List Nat) (c : List Nat)
    (retries : Nat) (st : Stats) :
    sendLoop ((reliableTr f) c) false retries st =
      (Except.ok none,
       { st with cnt_pkts := st.cnt_pkts + 1, xchg_attempts := st.xchg_attempts + 1 }) := by
  simp [sendLoop, sendLoopAux, attemptExchange, reliableTr]

/-- The send loop under the reliable transport, read command: one
successful send and one receive delivering `f c`. -/
theorem sendLoop_reliable_true (f : List Nat → List Nat) (c : List Nat)
    (retries : Nat) (st : Stats) :
    sendLoop ((reliableTr f) c) true retries st =
      (Except.ok (some (f c)),
       { st with cnt_pkts := st.cnt_pkts + 2, xchg_attempts := st.xchg_attempts + 1 }) := by
  simp [sendLoop, sendLoopAux, attemptExchange, reliableTr]

/-- `eioudp.cmd` on a read-classified command under the reliable
transport: classification, counter bump, one exchange. -/
theorem cmdNoVal_reliable_read (f : List Nat → List Nat) (g : Nat) (c : List Nat)
    (st : Stats) (h : cmdcheck c = some CmdType.read) :
    cmdNoVal (reliableTr f) g c st =
      (Except.ok (some (f c)),
       { st with cnt_cmds := st.cnt_cmds + 1, cnt_pkts := st.cnt_pkts + 2,
                 xchg_attempts := st.xchg_attempts + 1 }) := by
  simp only [cmdNoVal, h]
  rw [show (decide True) = true from rfl, sendLoop_reliable_true]

/-- The write-validation loop exits successfully on its first iteration
when the masked read-back equals the masked written value. -/
theorem wvLoopAux_reliable_ok (f : List Nat → List Nat) (g : Nat) (c vcmd : List Nat)
    (msk retries fuel tries : Nat) (st : Stats)
    (hread : cmdcheck vcmd = some CmdType.read)
    (heq : ((f vcmd).getLastD 0 &&& msk) = (c.getLastD 0 &&& msk)) :
    (wvLoopAux (reliableTr f) g c vcmd msk retries (fuel + 1) tries st).1 =
      Except.ok () := by
  simp only [wvLoopAux, cmdNoVal_reliable_read f g vcmd _ hread, bindStep_ok,
    Option.getD_some]
  rw [if_pos heq]

/-- The write-validation loop never succeeds when the masked read-back
always differs from the masked written value: it retries until Timeout. -/
theorem wvLoopAux_reliable_stuck (f : List Nat → List Nat) (g : Nat) (c vcmd : List Nat)
    (msk retries : Nat) (hread : cmdcheck vcmd = some CmdType.read)
    (hne : ¬(((f vcmd).getLastD 0 &&& msk) = (c.getLastD 0 &&& msk))) :
    ∀ fuel tries st,
      (wvLoopAux (reliableTr f) g c vcmd msk retries fuel tries st).1 =
        Except.error EioErr.timeout := by
  intro fuel
  induction fuel with
  | zero => intro tries st; simp [wvLoopAux]
  | succ n ih =>
    intro tries st
    simp only [wvLoopAux, cmdNoVal_reliable_read f g vcmd _ hread, bindStep_ok,
      Option.getD_some]
    rw [if_neg hne]
    simp only [reliableTr]
    split_ifs <;> first | rfl | exact ih (tries + 1) _

/-- Evaluation of `eioudp.cmd` on a verify command over the reliable
transport, up to the write-validation loop. -/
theorem cmdModel_verify_reliable (f : List Nat → List Nat) (c : List Nat) (g r : Nat)
    (st : Stats) (hv : cmdcheck c = some CmdType.verify)
    (hdir : isUpperPortB (c.headD 0) = true →
      cmdcheck (dirReadCmd c) = some CmdType.read) :
    ∃ st3, cmdModel true (reliableTr f) g (some r) c st =
      bindStep (wvLoopAux (reliableTr f) g c (vcmdOf c) (validationMask f c) r (r + 1) 0 st3)
        (fun _ st4 => (Except.ok none, st4)) := by
  simp only [cmdModel, hv, Option.getD_some]
  rw [show (decide (CmdType.verify = CmdType.read)) = false from rfl,
    sendLoop_reliable_false, bindStep_ok]
  rw [if_pos ⟨trivial, trivial⟩]
  by_cases hU : isUpperPortB (c.headD 0) = true
  · rw [if_pos hU, cmdNoVal_reliable_read f g _ _ (hdir hU), bindStep_ok, bindStep_ok]
    rw [validationMask, if_pos hU]
    exact ⟨_, rfl⟩
  · rw [if_neg hU, bindStep_ok, validationMask, if_neg hU]
    exact ⟨_, rfl⟩

/-- C1: with write-validation enabled, for any classified WriteVerify
command over a deterministic device (reliable transport answering reads
via `f`), validation succeeds exactly when the masked read-back equals
the masked written value, where the mask is the bitwise inverse of the
port's direction register for a value-register write (first byte an
uppercase port letter) and all-ones (0xFF) for any other register. -/
theorem c1_write_validation (f : List Nat → List Nat) (c : List Nat) (g r : Nat)
    (st : Stats) (hv : cmdcheck c = some CmdType.verify) :
    ((cmdModel true (reliableTr f) g (some r) c st).1 = Except.ok none ↔
      ((f (vcmdOf c)).getLastD 0 &&& validationMask f c) =
        (c.getLastD 0 &&& validationMask f c)) := by
  have hshape := cmdcheck_verify_shape c hv
  have hvc : cmdcheck (vcmdOf c) = some CmdType.read := by
    rcases hshape with ⟨U, v, hU, rfl⟩ | ⟨s, U, v, hs, hU, rfl⟩
    · simp only [vcmdOf, List.dropLast, List.map]
      exact cmdcheck_single_lower _ (lowerByte_of_upper U hU)
    · simp only [vcmdOf, List.dropLast, List.map]
      rw [lowerByte_sel s hs, cmdcheck_two _ _ (lowerByte_of_upper U hU),
        if_pos ⟨((rawSelectorBytes_iff s).mp hs).1, ((rawSelectorBytes_iff s).mp hs).2⟩]
  have hdir : isUpperPortB (c.headD 0) = true →
      cmdcheck (dirReadCmd c) = some CmdType.read := by
    intro hU0
    rcases hshape with ⟨U, v, hU, rfl⟩ | ⟨s, U, v, hs, hU, rfl⟩
    · simp only [dirReadCmd, List.take, List.map]
      rw [cmdcheck_two _ _ (lowerByte_of_upper U hU), if_pos ⟨by decide, by decide⟩]
    · refine absurd hU0 ?_
      have := (rawSelectorBytes_iff s).mp hs
      rw [isSelB_iff] at this
      simp only [List.headD_cons]
      rw [isUpperPortB_iff]
      omega
  obtain ⟨st3, heq⟩ := cmdModel_verify_reliable f c g r st hv hdir
  rw [heq]
  by_cases hmc : ((f (vcmdOf c)).getLastD 0 &&& validationMask f c) =
      (c.getLastD 0 &&& validationMask f c)
  · have hok := wvLoopAux_reliable_ok f g c (vcmdOf c) (validationMask f c) r r 0 st3 hvc hmc
    rcases hE : wvLoopAux (reliableTr f) g c (vcmdOf c) (validationMask f c) r (r + 1) 0 st3
      with ⟨res, st4⟩
    rw [hE] at hok
    have hres : res = Except.ok () := hok
    subst hres
    rw [bindStep_ok]
    exact iff_of_true rfl hmc
  · have hstuck := wvLoopAux_reliable_stuck f g c (vcmdOf c) (validationMask f c) r hvc hmc
      (r + 1) 0 st3
    rcases hE : wvLoopAux (reliableTr f) g c (vcmdOf c) (validationMask f c) r (r + 1) 0 st3
      with ⟨res, st4⟩
    rw [hE] at hstuck
    have hres : res = Except.error EioErr.timeout := hstuck
    subst hres
    rw [bindStep_error]
    exact iff_of_false (by simp) hmc

/-- Witness for C1: the bare value write `A\x2A` against a device whose
direction register reads 0x2A (those bits input) and whose value register
reads back 0x2A: the masked comparison holds and validation succeeds. -/
theorem c1_write_validation_witness :
    ((cmdModel true (reliableTr (fun _ => [0x2A])) 0 (some 0) [0x41, 0x2A] stats0).1 =
        Except.ok none ↔
      (([0x2A] : List Nat).getLastD 0 &&& validationMask (fun _ => [0x2A]) [0x41, 0x2A]) =
        (([0x41, 0x2A] : List Nat).getLastD 0 &&&
          validationMask (fun _ => [0x2A]) [0x41, 0x2A])) :=
  c1_write_validation (fun _ => [0x2A]) [0x41, 0x2A] 0 0 stats0 (by decide)

/-- No token is both an off and an on token. -/
theorem LOs_HIs_disjoint : ∀ x ∈ LOs, x ∉ HIs := by decide

/-- Every bit position below 8 is set in `0xFF`. -/
theorem testBit_255 : ∀ j, j < 8 → Nat.testBit 255 j = true := by decide

/-- C10: setting an in-range pin with a recognized token writes back a
byte that differs from the byte read only at bit `i % 8` of the owning
port `i / 8`: that bit becomes 1 for an on token and 0 for an off token,
and every other bit of the byte is unchanged. -/
theorem c10_pin_frame (k : Kind) (io : Int) (v : IOVal) (val : Nat)
    (h0 : 0 ≤ io) (h1 : io < (ioLen k : Int)) (hv : v ∈ LOs ∨ v ∈ HIs) :
    setitemModel k io v val =
      Except.ok (io.toNat / 8, setItemByte v (1 <<< (io.toNat % 8)) val) ∧
    (v ∈ HIs →
      (setItemByte v (1 <<< (io.toNat % 8)) val).testBit (io.toNat % 8) = true) ∧
    (v ∈ LOs →
      (setItemByte v (1 <<< (io.toNat % 8)) val).testBit (io.toNat % 8) = false) ∧
    (∀ j, j < 8 → j ≠ io.toNat % 8 →
      (setItemByte v (1 <<< (io.toNat % 8)) val).testBit j = val.testBit j) := by
  have hb : io.toNat % 8 < 8 := Nat.mod_lt _ (by omega)
  refine ⟨?_, ?_, ?_, ?_⟩
  · rw [setitemModel, if_neg (by simp only [List.mem_append]; tauto)]
    rw [iochk, if_neg (by omega)]
  · intro hHI
    have hLO : v ∉ LOs := fun hx => LOs_HIs_disjoint v hx hHI
    rw [setItemByte]
    simp only [if_neg hLO, if_pos hHI]
    rw [Nat.testBit_lor, Nat.one_shiftLeft, Nat.testBit_two_pow_self, Bool.or_true]
  · intro hLO
    have hHI : v ∉ HIs := LOs_HIs_disjoint v hLO
    rw [setItemByte]
    simp only [if_pos hLO, if_neg hHI]
    rw [Nat.testBit_land, Nat.testBit_xor, Nat.one_shiftLeft, Nat.testBit_two_pow_self,
      testBit_255 _ hb]
    simp
  · intro j hj hne
    rw [setItemByte]
    rcases hv with hLO | hHI
    · have hHI : v ∉ HIs := LOs_HIs_disjoint v hLO
      simp only [if_pos hLO, if_neg hHI]
      rw [Nat.testBit_land, Nat.testBit_xor, Nat.one_shiftLeft,
        Nat.testBit_two_pow_of_ne (fun h => hne h.symm), testBit_255 _ hj]
      simp
    · have hLO : v ∉ LOs := fun hx => LOs_HIs_disjoint v hx hHI
      simp only [if_neg hLO, if_pos hHI]
      rw [Nat.testBit_lor, Nat.one_shiftLeft,
        Nat.testBit_two_pow_of_ne (fun h => hne h.symm), Bool.or_false]

/-- Witness for C10: turning pin 5 of an IO24T ON with token `'ON'` when
the port byte reads 0: the written byte is 32, bit 5 set, all other bits
clear as read. -/
theorem c10_pin_frame_witness :
    setitemModel Kind.IO24T 5 (IOVal.str "ON") 0 =
      Except.ok ((5 : Int).toNat / 8,
        setItemByte (IOVal.str "ON") (1 <<< ((5 : Int).toNat % 8)) 0) :=
  (c10_pin_frame Kind.IO24T 5 (IOVal.str "ON") 0 (by decide) (by decide)
    (Or.inr (by decide))).1
